import Mathlib

/-!
Verification of the real-time collaborative whiteboard synchronization
server (`src/socket-server.js`) and the client reconciliation layer
(`src/components/Whiteboard.tsx` and the `useWhiteboardSocket`-based page).

The server holds, per session id, an ordered element snapshot plus an
active-user set and an authorized-participant set, and a per-user
rate-limit counter.  Each socket handler is embedded as a pure function
from the registry (and the connection's bound `sessionId`/`userId`) to a
new registry together with the list of outbound emissions.  Machine time
(`Date.now()`) is passed explicitly as a `Nat` of milliseconds.
-/

set_option autoImplicit false

namespace Whiteboard

/-- JS truthiness of a possibly-absent string field: `undefined` and the
empty string are falsy, every other string is truthy. -/
def truthy : Option String → Bool
  | none => false
  | some s => !(s == "")

/-- A canvas element as the server sees it: a duck-typed object whose
`id`, `type` and `userId` fields may each be absent (`none` stands for a
missing/`undefined` field), plus the remaining payload fields
(coordinates, color, …) abstracted as a key/value list. -/
structure Element where
  id : Option String
  type : Option String
  userId : Option String
  props : List (String × String)
  deriving DecidableEq, Repr

/-- Line 184 of `socket-server.js`:
`!element.id || !element.type || !element.userId` — an element is kept
only when all three fields are truthy. -/
def wellFormed (e : Element) : Bool :=
  truthy e.id && truthy e.type && truthy e.userId

/-! ### The JS value model (for handlers that destructure raw payloads) -/

/-- Untyped JS value, used for the handlers that access payload fields
without validating their shape (`send-invite`, `session-ended`). -/
inductive JSVal where
  | null
  | undefined
  | bool (b : Bool)
  | num (n : Int)
  | str (s : String)
  | arr (xs : List JSVal)
  | obj (fields : List (String × JSVal))

/-- The only runtime error our handlers can raise: a `TypeError`
(property access on `null`/`undefined`, or calling a missing method). -/
inductive JSErr where
  | typeError
  deriving DecidableEq, Repr

/-- JS truthiness of an arbitrary value. -/
def jsTruthy : JSVal → Bool
  | .null => false
  | .undefined => false
  | .bool b => b
  | .num n => !(n == 0)
  | .str s => !(s == "")
  | .arr _ => true
  | .obj _ => true

/-- Property access `v[k]`: throws a `TypeError` on `null`/`undefined`
(this is what object destructuring of a non-object payload does),
returns `undefined` for a missing key, and returns `undefined` for the
keys we access on primitive values. -/
def getField (v : JSVal) (k : String) : Except JSErr JSVal :=
  match v with
  | .null => .error .typeError
  | .undefined => .error .typeError
  | .obj fields =>
    .ok (((fields.find? (fun p => p.1 == k)).map (fun p => p.2)).getD .undefined)
  | _ => .ok .undefined

/-- String coercion used by room names and template literals. -/
def jsToStr : JSVal → String
  | .null => "null"
  | .undefined => "undefined"
  | .bool b => toString b
  | .num n => toString n
  | .str s => s
  | .arr _ => ""
  | .obj _ => "[object Object]"

/-- Method call `v.join(", ")`: only arrays have a `join` method; on any other value
the call throws a `TypeError`. -/
def jsJoin : JSVal → Except JSErr String
  | .arr xs => .ok (String.intercalate ", " (xs.map jsToStr))
  | _ => .error .typeError

/-! ### Rate limiting (`checkRateLimit`, lines 47–66) -/

def RATE_LIMIT_WINDOW : Nat := 1000

def RATE_LIMIT_MAX : Nat := 100

structure RateEntry where
  count : Nat
  resetTime : Nat
  deriving DecidableEq, Repr

/-- The `rateLimits` map, `userId -> { count, resetTime }`. -/
abbrev RateMap := List (String × RateEntry)

def lookupRate (u : String) : RateMap → Option RateEntry
  | [] => none
  | p :: ps => if p.1 == u then some p.2 else lookupRate u ps

/-- JS `Map.set`: replace the entry in place, or append a fresh one (keys
are unique, so replacing the first occurrence is replacing the only
one). -/
def setRate (u : String) (e : RateEntry) : RateMap → RateMap
  | [] => [(u, e)]
  | p :: ps => if p.1 == u then (u, e) :: ps else p :: setRate u e ps

/-- Source `checkRateLimit(userId)`: fixed 1000 ms window, at most 100 events
per window; returns whether the event passes, plus the updated map
(unchanged exactly when the event is dropped). -/
def checkRateLimit (now : Nat) (userId : String) (m : RateMap) :
    Bool × RateMap :=
  match lookupRate userId m with
  | none => (true, setRate userId ⟨1, now + RATE_LIMIT_WINDOW⟩ m)
  | some limit =>
    if limit.resetTime < now then
      (true, setRate userId ⟨1, now + RATE_LIMIT_WINDOW⟩ m)
    else if RATE_LIMIT_MAX ≤ limit.count then
      (false, m)
    else
      (true, setRate userId ⟨limit.count + 1, limit.resetTime⟩ m)

/-- Run `checkRateLimit` for user `u` once per timestamp, threading the
map; returns the pass/drop verdict of every call in order. -/
def runRate (u : String) : List Nat → RateMap → List Bool × RateMap
  | [], m => ([], m)
  | t :: ts, m =>
    let rc := checkRateLimit t u m
    let rest := runRate u ts rc.2
    (rc.1 :: rest.1, rest.2)

/-! ### Outbound emissions -/

/-- Where an emission is delivered.  `othersInRoom r` is
`socket.to(r).emit` (everyone in room `r` except the sender), `room r`
is `io.to(r).emit` (everyone in room `r`, sender included),
`userRoom u` is `io.to("user:" + u).emit`, and `sender` is
`socket.emit`. -/
inductive Scope where
  | othersInRoom (room : String)
  | room (room : String)
  | userRoom (u : String)
  | sender

/-- An outbound event with its payload. -/
inductive Msg where
  | elementAdded (e : Element)
  | elementUpdated (e : Element)
  | elementDeleted (id : String)
  | elementsUpdate (es : List Element)
  | userStatusChange (userId status : String)
  | cursorRemove (sockId : String)
  | userLeftMsg (userId : String)
  | sessionEndedMsg
  | newInvite (session : JSVal)

structure Emit where
  scope : Scope
  msg : Msg

/-! ### The registry (module-level maps, lines 26–30) -/

/-- Generic string-keyed association map lookups/updates used for the
three module-level maps. -/
def lookupS {α : Type} (k : String) : List (String × α) → Option α
  | [] => none
  | p :: ps => if p.1 == k then some p.2 else lookupS k ps

def setS {α : Type} (k : String) (v : α) :
    List (String × α) → List (String × α)
  | [] => [(k, v)]
  | p :: ps => if p.1 == k then (k, v) :: ps else p :: setS k v ps

def delS {α : Type} (k : String) (m : List (String × α)) :
    List (String × α) :=
  m.filter (fun p => !(p.1 == k))

/-- JS `Set` membership/removal, modelled on duplicate-free lists. -/
def setAdd (u : String) (s : List String) : List String :=
  if s.contains u then s else s ++ [u]

def setDel (u : String) (s : List String) : List String :=
  s.filter (fun v => !(v == u))

/-- Apply `f` to the set stored at `k` only when the map has an entry
for `k` (the handlers guard every set mutation with
`if (activeUsers[sid]) { ... }`). -/
def updateSet (k : String) (f : List String → List String)
    (m : List (String × List String)) : List (String × List String) :=
  match lookupS k m with
  | none => m
  | some s => setS k (f s) m

/-- The server's mutable module-level state: `sessions`, `activeUsers`,
`sessionParticipants` and `rateLimits`. -/
structure Registry where
  sessions : List (String × List Element)
  activeUsers : List (String × List String)
  sessionParticipants : List (String × List String)
  rateLimits : RateMap
  deriving DecidableEq, Repr

/-! ### Element event handlers (lines 179–267)

Each handler is invoked on a connection bound to `sessionId` and
`userId` (the claims quantify over connections with a bound user
identity).  Every element handler starts with the common preamble
`if (!sessionId || !sessions[sessionId]) return;` — an unknown or empty
session id is a no-op — followed by `if (!checkRateLimit(userId))
return;`.  The rate map is updated even when a later validation fails,
exactly as in the source. -/

/-- Handler `socket.on("add-element")`, lines 179–191: validate the three
required fields, append at the tail, fan out to everyone in the room
except the sender.  `element? = none` stands for a null/undefined
payload. -/
def addElement (now : Nat) (sessionId userId : String)
    (element? : Option Element) (r : Registry) : Registry × List Emit :=
  match lookupS sessionId r.sessions with
  | none => (r, [])
  | some elems =>
    let rc := checkRateLimit now userId r.rateLimits
    let r := { r with rateLimits := rc.2 }
    if !rc.1 then (r, [])
    else
      match element? with
      | none => (r, [])
      | some e =>
        if !(wellFormed e) then (r, [])
        else
          ({ r with sessions := setS sessionId (elems ++ [e]) r.sessions },
           [⟨.othersInRoom sessionId, .elementAdded e⟩])

/-- JS `Array.findIndex` (as an `Option`-valued index): the first index
satisfying the predicate. -/
def findIndex (p : Element → Bool) : List Element → Option Nat
  | [] => none
  | e :: es => if p e then some 0 else (findIndex p es).map (fun i => i + 1)

/-- Handler `socket.on("update-element")`, lines 193–204: only the presence of
`element.id` is validated; the element at the first index whose `id`
matches is replaced verbatim, and the update is fanned out to the
others; an unknown id is a no-op with no emission. -/
def updateElement (now : Nat) (sessionId userId : String)
    (element? : Option Element) (r : Registry) : Registry × List Emit :=
  match lookupS sessionId r.sessions with
  | none => (r, [])
  | some elems =>
    let rc := checkRateLimit now userId r.rateLimits
    let r := { r with rateLimits := rc.2 }
    if !rc.1 then (r, [])
    else
      match element? with
      | none => (r, [])
      | some e =>
        if !(truthy e.id) then (r, [])
        else
          match findIndex (fun el => el.id == e.id) elems with
          | some i =>
            ({ r with sessions := setS sessionId (elems.set i e) r.sessions },
             [⟨.othersInRoom sessionId, .elementUpdated e⟩])
          | none => (r, [])

/-- The backward scan of `socket.on("undo-element")`, lines 217–223:
the index of the chronologically last element whose `userId` field
equals the target user (`none` when the user authored nothing). -/
def findLastIdx (u : String) : List Element → Option Nat
  | [] => none
  | e :: es =>
    match findLastIdx u es with
    | some i => some (i + 1)
    | none => if e.userId == some u then some 0 else none

/-- Handler `socket.on("undo-element")`, lines 206–229: ownership is enforced
(`targetUserId !== userId` is dropped); on success the last element
authored by the target is spliced out and the whole resulting snapshot
is emitted to the entire room, sender included. -/
def undoElement (now : Nat) (sessionId userId targetUserId : String)
    (r : Registry) : Registry × List Emit :=
  match lookupS sessionId r.sessions with
  | none => (r, [])
  | some elems =>
    let rc := checkRateLimit now userId r.rateLimits
    let r := { r with rateLimits := rc.2 }
    if !rc.1 then (r, [])
    else if !(targetUserId == userId) then (r, [])
    else
      match findLastIdx targetUserId elems with
      | some i =>
        let elems' := elems.eraseIdx i
        ({ r with sessions := setS sessionId elems' r.sessions },
         [⟨.room sessionId, .elementsUpdate elems'⟩])
      | none => (r, [])

/-- Handler `socket.on("delete-element")`, lines 231–247: a non-owner delete is
logged but allowed; the snapshot is filtered by id and
`element-deleted` is emitted to the whole room unconditionally, whether
or not the id was present. -/
def deleteElement (now : Nat) (sessionId userId elementId : String)
    (r : Registry) : Registry × List Emit :=
  match lookupS sessionId r.sessions with
  | none => (r, [])
  | some elems =>
    let rc := checkRateLimit now userId r.rateLimits
    let r := { r with rateLimits := rc.2 }
    if !rc.1 then (r, [])
    else
      let elems' := elems.filter (fun el => !(el.id == some elementId))
      ({ r with sessions := setS sessionId elems' r.sessions },
       [⟨.room sessionId, .elementDeleted elementId⟩])

/-- Handler `socket.on("clear-user-elements")`, lines 249–267: ownership is
enforced like undo; all of the target's elements are filtered out, and
the full snapshot is emitted to the whole room only when the length
changed. -/
def clearUserElements (now : Nat) (sessionId userId targetUserId : String)
    (r : Registry) : Registry × List Emit :=
  match lookupS sessionId r.sessions with
  | none => (r, [])
  | some elems =>
    let rc := checkRateLimit now userId r.rateLimits
    let r := { r with rateLimits := rc.2 }
    if !rc.1 then (r, [])
    else if !(targetUserId == userId) then (r, [])
    else
      let elems' := elems.filter (fun s => !(s.userId == some targetUserId))
      let r := { r with sessions := setS sessionId elems' r.sessions }
      if !(elems'.length == elems.length) then
        (r, [⟨.room sessionId, .elementsUpdate elems'⟩])
      else
        (r, [])

/-! ### Membership / lifecycle handlers -/

/-- Handler `socket.on("user-left")`, lines 299–313: after the payload guard and
the rate check, the named user is deleted from BOTH the active-user set
and the participant set of the named session, then `user-left` is
emitted to the whole room. -/
def userLeft (now : Nat) (userId leftUserId leftSessionId : String)
    (r : Registry) : Registry × List Emit :=
  if !(truthy (some leftSessionId)) || !(truthy (some leftUserId)) then (r, [])
  else
    let rc := checkRateLimit now userId r.rateLimits
    let r := { r with rateLimits := rc.2 }
    if !rc.1 then (r, [])
    else
      let r :=
        { r with
          activeUsers := updateSet leftSessionId (setDel leftUserId) r.activeUsers,
          sessionParticipants :=
            updateSet leftSessionId (setDel leftUserId) r.sessionParticipants }
      (r, [⟨.room leftSessionId, .userLeftMsg leftUserId⟩])

/-- Handler `socket.on("send-invite")`, lines 128–137: the payload is
destructured (`{ toUserIds, session }` — a `TypeError` on a
null/undefined payload), then after the userId/rate guard the log line
evaluates `toUserIds.join(", ")` (a `TypeError` unless `toUserIds` is
an array) and `session.name`, and finally one `new-invite` is emitted
to each target user's inbox room. -/
def sendInvite (now : Nat) (userId : Option String) (payload : JSVal)
    (rl : RateMap) : Except JSErr (RateMap × List Emit) := do
  let toUserIds ← getField payload "toUserIds"
  let session ← getField payload "session"
  if !(truthy userId) then return (rl, [])
  else
    match userId with
    | none => return (rl, [])
    | some u =>
      let rc := checkRateLimit now u rl
      if !rc.1 then return (rc.2, [])
      else do
        let _ ← jsJoin toUserIds
        let _ ← getField session "name"
        match toUserIds with
        | .arr ids =>
          return (rc.2, ids.map (fun i => ⟨.userRoom (jsToStr i), .newInvite session⟩))
        | _ => return (rc.2, [])

/-- Handler `socket.on("session-ended")`, lines 269–280: the payload is
destructured (`{ sessionId: endedSessionId }` — a `TypeError` on a
null/undefined payload); a falsy session id is a no-op; then the
terminal notification goes to the rest of the room and the three
registry entries for that session are deleted. -/
def sessionEnded (now : Nat) (userId : String) (payload : JSVal)
    (r : Registry) : Except JSErr (Registry × List Emit) := do
  let endedSessionId ← getField payload "sessionId"
  if !(jsTruthy endedSessionId) then return (r, [])
  else
    let rc := checkRateLimit now userId r.rateLimits
    let r := { r with rateLimits := rc.2 }
    if !rc.1 then return (r, [])
    else
      let sid := jsToStr endedSessionId
      return ({ r with
                  sessions := delS sid r.sessions,
                  activeUsers := delS sid r.activeUsers,
                  sessionParticipants := delS sid r.sessionParticipants },
              [⟨.othersInRoom sid, .sessionEndedMsg⟩])

/-! ### Disconnect / presence (lines 337–358) -/

/-- A live socket as seen by `io.in(sessionId).fetchSockets()`: the
raw handshake-query user id and the server-bound `socket.userId`. -/
structure RSocket where
  queryUserId : Option String
  boundUserId : Option String
  deriving DecidableEq, Repr

/-- Handler `socket.on("disconnect")`, lines 337–358, for a connection bound to
a session and a user.  `roomSockets` is what `fetchSockets` returns at
disconnect time: the connections still in the session room (the
disconnecting socket has already left its rooms).  A `cursor-remove` is
always emitted to the room; the offline transition and the active-set
removal fire only when no remaining connection carries the same user
id. -/
def disconnectHandler (sockId : String) (sessionId userId : String)
    (roomSockets : List RSocket) (r : Registry) : Registry × List Emit :=
  let base : List Emit := [⟨.room sessionId, .cursorRemove sockId⟩]
  let isStillOnline := roomSockets.any
    (fun s => s.queryUserId == some userId || s.boundUserId == some userId)
  if isStillOnline then (r, base)
  else
    ({ r with activeUsers := updateSet sessionId (setDel userId) r.activeUsers },
     base ++ [⟨.room sessionId, .userStatusChange userId "offline"⟩])

/-- Number of `user-status-change{status:"offline"}` emissions in a
fan-out list. -/
def countOffline (ems : List Emit) : Nat :=
  (ems.filter (fun em =>
    match em.msg with
    | .userStatusChange _ s => s == "offline"
    | _ => false)).length

/-! ### Client reconciliation layer -/

/-- A client-side canvas element: the id is a mandatory string, the
rest of the payload is abstracted. -/
structure CElem where
  id : String
  props : List (String × String)
  deriving DecidableEq, Repr

/-- In `Whiteboard.tsx`, `socket.on("element-added")`:
`setElements(prev => [...prev, element])` — an unconditional append. -/
def wbOnElementAdded (e : CElem) (prev : List CElem) : List CElem :=
  prev ++ [e]

/-- In `Whiteboard.tsx`, `socket.on("element-updated")`:
`prev.map(el => el.id === element.id ? element : el)` — replace in
place where the id matches, nothing appended otherwise. -/
def wbOnElementUpdated (e : CElem) (prev : List CElem) : List CElem :=
  prev.map (fun el => if el.id == e.id then e else el)

/-- The `useWhiteboardSocket`-based page's `onElementAdded`: skip the
append when some element already has the same id. -/
def hookOnElementAdded (e : CElem) (prev : List CElem) : List CElem :=
  if prev.any (fun el => el.id == e.id) then prev else prev ++ [e]

/-- The `useWhiteboardSocket`-based page's `onElementUpdated`: id-based
upsert — replace in place where found, else append. -/
def hookOnElementUpdated (e : CElem) (prev : List CElem) : List CElem :=
  if prev.any (fun el => el.id == e.id) then
    prev.map (fun el => if el.id == e.id then e else el)
  else
    prev ++ [e]

/-! ### Concrete sample values (used by closed witness statements) -/

def sampleU : Element := ⟨some "e1", some "rectangle", some "u", []⟩

def sampleV : Element := ⟨some "e2", some "rectangle", some "v", []⟩

/-- An element carrying only an `id` (the shape `update-element` lets
through). -/
def sampleNoType : Element := ⟨some "e1", none, none, []⟩

/-- A registry holding one session `"s"` with the given snapshot and no
presence or rate state. -/
def sampleReg (es : List Element) : Registry := ⟨[("s", es)], [], [], []⟩

/-- A registry with session `"s"` empty and users `u`, `v` both active
and both authorized participants. -/
def regMembers : Registry :=
  ⟨[("s", [])], [("s", ["u", "v"])], [("s", ["u", "v"])], []⟩

def cE (i : String) : CElem := ⟨i, []⟩

/-! ### Helper lemmas about the association maps -/

theorem lookupS_setS_self {α : Type} (k : String) (v : α)
    (m : List (String × α)) : lookupS k (setS k v m) = some v := by
  induction m with
  | nil => simp [setS, lookupS]
  | cons p ps ih =>
    by_cases h : p.1 = k
    · simp [setS, lookupS, h]
    · simp [setS, lookupS, h, ih]

theorem lookupS_setS_ne {α : Type} (k q : String) (v : α)
    (m : List (String × α)) (h : ¬(q = k)) :
    lookupS q (setS k v m) = lookupS q m := by
  have hkq : ¬(k = q) := fun hh => h hh.symm
  induction m with
  | nil => simp [setS, lookupS, hkq]
  | cons p ps ih =>
    by_cases hp : p.1 = k
    · simp [setS, lookupS, hp, hkq]
    · by_cases hpq : p.1 = q <;> simp [setS, lookupS, hp, hpq, h, ih]

theorem lookupS_updateSet_self (k : String) (f : List String → List String)
    (m : List (String × List String)) :
    lookupS k (updateSet k f m) = (lookupS k m).map f := by
  unfold updateSet
  cases h : lookupS k m with
  | none => simp [h]
  | some s => simp [h, lookupS_setS_self]

theorem lookupS_updateSet_ne (k q : String) (f : List String → List String)
    (m : List (String × List String)) (h : ¬(q = k)) :
    lookupS q (updateSet k f m) = lookupS q m := by
  unfold updateSet
  cases hk : lookupS k m with
  | none => rfl
  | some s => simp [lookupS_setS_ne k q _ m h]

theorem lookupRate_setRate_self (u : String) (e : RateEntry) (m : RateMap) :
    lookupRate u (setRate u e m) = some e := by
  induction m with
  | nil => simp [setRate, lookupRate]
  | cons p ps ih =>
    by_cases h : p.1 = u
    · simp [setRate, lookupRate, h]
    · simp [setRate, lookupRate, h, ih]

/-! ### Helper lemmas about `findIndex` and `findLastIdx` -/

theorem findIndex_eq_none (p : Element → Bool) (l : List Element)
    (h : ∀ x ∈ l, p x = false) : findIndex p l = none := by
  induction l with
  | nil => rfl
  | cons e es ih =>
    have he : p e = false := h e (List.mem_cons_self e es)
    simp [findIndex, he, ih (fun x hx => h x (List.mem_cons_of_mem e hx))]

theorem findLastIdx_eq_none (u : String) (l : List Element)
    (h : ∀ e ∈ l, ¬(e.userId = some u)) : findLastIdx u l = none := by
  induction l with
  | nil => rfl
  | cons e es ih =>
    have hrec := ih (fun x hx => h x (List.mem_cons_of_mem e hx))
    have he : ¬(e.userId = some u) := h e (List.mem_cons_self e es)
    simp [findLastIdx, hrec, he]

theorem findLastIdx_eq_some (u : String) (l : List Element) (i : Nat)
    (hi : i < l.length) (hm : (l.get ⟨i, hi⟩).userId = some u)
    (hlast : ∀ j, (hj : j < l.length) → i < j →
      ¬((l.get ⟨j, hj⟩).userId = some u)) :
    findLastIdx u l = some i := by
  induction l generalizing i with
  | nil => exact absurd hi (Nat.not_lt_zero i)
  | cons e es ih =>
    cases i with
    | zero =>
      have hm0 : e.userId = some u := by simpa using hm
      have hnone : findLastIdx u es = none := by
        apply findLastIdx_eq_none
        intro x hx
        obtain ⟨⟨j, hj⟩, hget⟩ := List.mem_iff_get.mp hx
        intro hxid
        have hg : (e :: es).get ⟨j + 1, Nat.succ_lt_succ hj⟩ = x := by
          simpa using hget
        exact hlast (j + 1) (Nat.succ_lt_succ hj) (Nat.succ_pos j)
          (by rw [hg]; exact hxid)
      simp [findLastIdx, hnone, hm0]
    | succ i0 =>
      have hi0 : i0 < es.length := Nat.lt_of_succ_lt_succ hi
      have hrec : findLastIdx u es = some i0 := by
        apply ih i0 hi0 (by simpa using hm)
        intro j hj hij
        have hj1 := hlast (j + 1) (Nat.succ_lt_succ hj) (Nat.succ_lt_succ hij)
        simpa using hj1
      simp [findLastIdx, hrec]

/-! ### The claims -/

/-- C1: for a session snapshot and an `undo-element(u)` event whose
sender's bound userId equals `u` (and which passes the rate check): if
`u` authored no surviving element, the snapshot is unchanged and
nothing is emitted; if `u`'s chronologically last authored element sits
at index `i`, exactly that element is removed (`eraseIdx i`, so no
other user's element is touched) and the entire resulting snapshot is
emitted as `elements-update` to the whole room, sender included. -/
theorem undo_element_last_authored (now : Nat) (sid u : String)
    (r : Registry) (elems : List Element)
    (hs : lookupS sid r.sessions = some elems)
    (hrate : (checkRateLimit now u r.rateLimits).1 = true) :
    ((∀ e ∈ elems, ¬(e.userId = some u)) →
        (undoElement now sid u u r).1.sessions = r.sessions ∧
        (undoElement now sid u u r).2 = []) ∧
    (∀ i, (hi : i < elems.length) → (elems.get ⟨i, hi⟩).userId = some u →
        (∀ j, (hj : j < elems.length) → i < j →
          ¬((elems.get ⟨j, hj⟩).userId = some u)) →
        lookupS sid (undoElement now sid u u r).1.sessions =
          some (elems.eraseIdx i) ∧
        (undoElement now sid u u r).2 =
          [⟨Scope.room sid, Msg.elementsUpdate (elems.eraseIdx i)⟩]) := by
  constructor
  · intro h
    have hnone := findLastIdx_eq_none u elems h
    simp [undoElement, hs, hrate, hnone]
  · intro i hi hm hlast
    have hsome := findLastIdx_eq_some u elems i hi hm hlast
    simp [undoElement, hs, hrate, hsome, lookupS_setS_self]

/-- Witness for C1 at a concrete input: in snapshot
`[sampleU, sampleV]` (authors `u` then `v`), user `u`'s undo removes
exactly `sampleU` and broadcasts the resulting full snapshot to the
room. -/
theorem undo_element_last_authored_witness :
    lookupS "s" ((undoElement 0 "s" "u" "u"
        (sampleReg [sampleU, sampleV])).1).sessions = some [sampleV] ∧
    (undoElement 0 "s" "u" "u" (sampleReg [sampleU, sampleV])).2 =
      [⟨Scope.room "s", Msg.elementsUpdate [sampleV]⟩] := by
  have h := undo_element_last_authored 0 "s" "u"
    (sampleReg [sampleU, sampleV]) [sampleU, sampleV]
    (by decide) (by decide)
  have hlast : ∀ j, (hj : j < ([sampleU, sampleV] : List Element).length) →
      0 < j → ¬((([sampleU, sampleV] : List Element).get ⟨j, hj⟩).userId =
        some "u") := by
    intro j hj hij
    have hj1 : j = 1 := by
      simp [List.length] at hj
      omega
    subst hj1
    simp [sampleU, sampleV]
  have h2 := h.2 0 (by decide) (by decide) hlast
  simpa using h2

/-- C2: ownership is enforced asymmetrically.  An `undo-element` or
`clear-user-elements` event whose target differs from the sender's
bound userId leaves the snapshot unchanged and emits nothing, while a
`delete-element` naming an existing element id removes that element
with no ownership hypothesis at all (the sender's userId `u` is
unconstrained relative to the element's author). -/
theorem ownership_asymmetry (now : Nat) (sid u t eid : String)
    (r : Registry) (elems : List Element)
    (hs : lookupS sid r.sessions = some elems)
    (hrate : (checkRateLimit now u r.rateLimits).1 = true)
    (ht : ¬(t = u)) :
    ((undoElement now sid u t r).1.sessions = r.sessions ∧
     (undoElement now sid u t r).2 = []) ∧
    ((clearUserElements now sid u t r).1.sessions = r.sessions ∧
     (clearUserElements now sid u t r).2 = []) ∧
    ((∃ el ∈ elems, el.id = some eid) →
      lookupS sid (deleteElement now sid u eid r).1.sessions =
        some (elems.filter (fun el => !(el.id == some eid))) ∧
      (deleteElement now sid u eid r).2 =
        [⟨Scope.room sid, Msg.elementDeleted eid⟩] ∧
      ∀ el ∈ elems, el.id = some eid →
        el ∉ elems.filter (fun el => !(el.id == some eid))) := by
  have htb : (t == u) = false := beq_eq_false_iff_ne.mpr ht
  refine ⟨?_, ?_, ?_⟩
  · simp [undoElement, hs, hrate, htb]
  · simp [clearUserElements, hs, hrate, htb]
  · intro _
    refine ⟨?_, ?_, ?_⟩
    · simp [deleteElement, hs, hrate, lookupS_setS_self]
    · simp [deleteElement, hs, hrate]
    · intro el _ hid
      simp [List.mem_filter, hid]

/-- Witness for C2: user `u` cannot undo `v`'s elements (snapshot and
fan-out untouched), but `u` deleting `v`'s element `"e2"` succeeds. -/
theorem ownership_asymmetry_witness :
    ((undoElement 0 "s" "u" "v" (sampleReg [sampleU, sampleV])).1.sessions =
        (sampleReg [sampleU, sampleV]).sessions ∧
     (undoElement 0 "s" "u" "v" (sampleReg [sampleU, sampleV])).2 = []) ∧
    lookupS "s" ((deleteElement 0 "s" "u" "e2"
        (sampleReg [sampleU, sampleV])).1).sessions = some [sampleU] := by
  have h := ownership_asymmetry 0 "s" "u" "v" "e2"
    (sampleReg [sampleU, sampleV]) [sampleU, sampleV]
    (by decide) (by decide) (by decide)
  refine ⟨h.1, ?_⟩
  have h3 := (h.2.2 ⟨sampleV, by decide, by decide⟩).1
  have hf : ([sampleU, sampleV].filter (fun el => !(el.id == some "e2"))) =
      [sampleU] := by decide
  rw [hf] at h3
  exact h3

/-- C6 counterexample: a `delete-element` whose id is absent from the
snapshot is not a complete no-op — the handler still broadcasts
`element-deleted` to the room (`io.to(sessionId).emit` runs
unconditionally at lines 243–246). -/
theorem delete_absent_id_still_emits :
    ¬((deleteElement 0 "s" "u" "zz" (sampleReg [])).2 = []) := by
  intro h
  have he : (deleteElement 0 "s" "u" "zz" (sampleReg [])).2 =
      [⟨Scope.room "s", Msg.elementDeleted "zz"⟩] := rfl
  rw [he] at h
  exact List.noConfusion h

/-- C6 as amended: an `update-element` whose id is absent leaves the
snapshot unchanged and broadcasts nothing (so a deleted element is
never resurrected); a `delete-element` whose id is absent leaves the
snapshot unchanged, though `element-deleted` is still broadcast to the
room. -/
theorem unknown_element_id_ops (now : Nat) (sid u eid : String)
    (r : Registry) (elems : List Element) (e : Element)
    (hs : lookupS sid r.sessions = some elems)
    (hrate : (checkRateLimit now u r.rateLimits).1 = true) :
    (truthy e.id = true → (∀ el ∈ elems, ¬(el.id = e.id)) →
      (updateElement now sid u (some e) r).1.sessions = r.sessions ∧
      (updateElement now sid u (some e) r).2 = []) ∧
    ((∀ el ∈ elems, ¬(el.id = some eid)) →
      lookupS sid (deleteElement now sid u eid r).1.sessions = some elems ∧
      (deleteElement now sid u eid r).2 =
        [⟨Scope.room sid, Msg.elementDeleted eid⟩]) := by
  constructor
  · intro htr habs
    have hnone : findIndex (fun el => el.id == e.id) elems = none :=
      findIndex_eq_none _ _
        (fun x hx => beq_eq_false_iff_ne.mpr (habs x hx))
    simp [updateElement, hs, hrate, htr, hnone]
  · intro habs
    have hfilter : elems.filter (fun el => !(el.id == some eid)) = elems := by
      apply List.filter_eq_self.mpr
      intro a ha
      simp [beq_eq_false_iff_ne.mpr (habs a ha)]
    simp [deleteElement, hs, hrate, hfilter, lookupS_setS_self]

/-- Witness for the amended C6: updating unknown id `"zz"` in
`[sampleU]` changes nothing and emits nothing; deleting unknown id
`"zz"` keeps the snapshot but still emits `element-deleted`. -/
theorem unknown_element_id_ops_witness :
    ((updateElement 0 "s" "u" (some ⟨some "zz", none, none, []⟩)
        (sampleReg [sampleU])).1.sessions = (sampleReg [sampleU]).sessions ∧
     (updateElement 0 "s" "u" (some ⟨some "zz", none, none, []⟩)
        (sampleReg [sampleU])).2 = []) ∧
    (lookupS "s" ((deleteElement 0 "s" "u" "zz"
        (sampleReg [sampleU])).1).sessions = some [sampleU] ∧
     (deleteElement 0 "s" "u" "zz" (sampleReg [sampleU])).2 =
        [⟨Scope.room "s", Msg.elementDeleted "zz"⟩]) := by
  have h := unknown_element_id_ops 0 "s" "u" "zz" (sampleReg [sampleU])
    [sampleU] ⟨some "zz", none, none, []⟩ (by decide) (by decide)
  exact ⟨h.1 (by decide) (by decide), h.2 (by decide)⟩

/-- C7: an `add-element` payload with a missing `id`, `type` or
`userId` field is silently rejected (snapshot unchanged, nothing
emitted to anyone); a well-formed element is appended at the tail and
`element-added` is emitted to every other connection in the room,
never echoed to the sender (`socket.to`, not `io.to`). -/
theorem add_element_validation (now : Nat) (sid u : String)
    (r : Registry) (elems : List Element) (e : Element)
    (hs : lookupS sid r.sessions = some elems)
    (hrate : (checkRateLimit now u r.rateLimits).1 = true) :
    ((e.id = none ∨ e.type = none ∨ e.userId = none) →
      (addElement now sid u (some e) r).1.sessions = r.sessions ∧
      (addElement now sid u (some e) r).2 = []) ∧
    (wellFormed e = true →
      lookupS sid (addElement now sid u (some e) r).1.sessions =
        some (elems ++ [e]) ∧
      (addElement now sid u (some e) r).2 =
        [⟨Scope.othersInRoom sid, Msg.elementAdded e⟩]) := by
  constructor
  · intro h
    have hw : wellFormed e = false := by
      rcases h with h | h | h <;> simp [wellFormed, truthy, h]
    simp [addElement, hs, hrate, hw]
  · intro hw
    simp [addElement, hs, hrate, hw, lookupS_setS_self]

/-- Witness for C7: an element missing its `type`/`userId` is dropped
with no emission; `sampleU` is appended and fanned out to the others
only. -/
theorem add_element_validation_witness :
    ((addElement 0 "s" "u" (some ⟨some "x", none, some "u", []⟩)
        (sampleReg [])).1.sessions = (sampleReg []).sessions ∧
     (addElement 0 "s" "u" (some ⟨some "x", none, some "u", []⟩)
        (sampleReg [])).2 = []) ∧
    (lookupS "s" ((addElement 0 "s" "u" (some sampleU)
        (sampleReg [])).1).sessions = some [sampleU] ∧
     (addElement 0 "s" "u" (some sampleU) (sampleReg [])).2 =
        [⟨Scope.othersInRoom "s", Msg.elementAdded sampleU⟩]) := by
  refine ⟨(add_element_validation 0 "s" "u" (sampleReg []) []
      ⟨some "x", none, some "u", []⟩ (by decide) (by decide)).1
      (Or.inr (Or.inl rfl)), ?_⟩
  exact (add_element_validation 0 "s" "u" (sampleReg []) [] sampleU
      (by decide) (by decide)).2 (by decide)

/-- C10: `update-element` checks only that the payload carries a truthy
`id`.  Any payload whose id matches an existing element replaces that
element verbatim — no `type`/`userId` validation — and consequently the
concrete sequence add `sampleU` then update with `sampleNoType`
(id only) leaves the snapshot holding an element that violates the
append-time well-formedness check. -/
theorem update_element_validates_only_id :
    (∀ (now : Nat) (sid u : String) (r : Registry) (elems : List Element)
        (e : Element) (i : Nat),
      lookupS sid r.sessions = some elems →
      (checkRateLimit now u r.rateLimits).1 = true →
      truthy e.id = true →
      findIndex (fun el => el.id == e.id) elems = some i →
      lookupS sid (updateElement now sid u (some e) r).1.sessions =
        some (elems.set i e) ∧
      (updateElement now sid u (some e) r).2 =
        [⟨Scope.othersInRoom sid, Msg.elementUpdated e⟩]) ∧
    (lookupS "s" ((updateElement 1 "s" "u" (some sampleNoType)
        ((addElement 0 "s" "u" (some sampleU) (sampleReg [])).1)).1).sessions =
      some [sampleNoType] ∧
     wellFormed sampleNoType = false) := by
  refine ⟨?_, by decide, by decide⟩
  intro now sid u r elems e i hs hrate htr hidx
  simp [updateElement, hs, hrate, htr, hidx, lookupS_setS_self]

/-- Witness for C10's universal part: updating id `"e1"` in
`[sampleU, sampleV]` with the type-less payload replaces index 0
verbatim and fans the update out to the others. -/
theorem update_element_validates_only_id_witness :
    lookupS "s" ((updateElement 0 "s" "u" (some sampleNoType)
        (sampleReg [sampleU, sampleV])).1).sessions =
      some [sampleNoType, sampleV] ∧
    (updateElement 0 "s" "u" (some sampleNoType)
        (sampleReg [sampleU, sampleV])).2 =
      [⟨Scope.othersInRoom "s", Msg.elementUpdated sampleNoType⟩] := by
  have h := update_element_validates_only_id.1 0 "s" "u"
    (sampleReg [sampleU, sampleV]) [sampleU, sampleV] sampleNoType 0
    (by decide) (by decide) (by decide) (by decide)
  have hset : ([sampleU, sampleV] : List Element).set 0 sampleNoType =
      [sampleNoType, sampleV] := by decide
  rw [hset] at h
  exact h

/-- When the rate check drops an event, the rate map is left exactly as
it was (`return false` happens before the increment). -/
theorem checkRateLimit_drop_keeps_state (now : Nat) (u : String)
    (m : RateMap) (h : (checkRateLimit now u m).1 = false) :
    (checkRateLimit now u m).2 = m := by
  cases hl : lookupRate u m with
  | none => simp [checkRateLimit, hl] at h
  | some limit =>
    by_cases h1 : limit.resetTime < now
    · simp [checkRateLimit, hl, h1] at h
    · by_cases h2 : RATE_LIMIT_MAX ≤ limit.count
      · simp [checkRateLimit, hl, h1, h2]
      · simp [checkRateLimit, hl, h1, h2] at h

/-- With the counter at `c` (at least one event recorded) and every
remaining timestamp inside the window (`t ≤ resetTime`), the verdicts
of the remaining calls are exactly "pass while `c + i` is below the
cap". -/
theorem runRate_counting (u : String) (ts : List Nat) (m : RateMap)
    (c rt : Nat) (hm : lookupRate u m = some ⟨c, rt⟩) (hc : 1 ≤ c)
    (hts : ∀ t ∈ ts, t ≤ rt) :
    (runRate u ts m).1 =
      (List.range ts.length).map (fun i => decide (c + i < RATE_LIMIT_MAX)) := by
  induction ts generalizing m c with
  | nil => simp [runRate]
  | cons t ts ih =>
    have hnotlt : ¬(rt < t) := Nat.not_lt.mpr (hts t (List.mem_cons_self t ts))
    have htail : ∀ x ∈ ts, x ≤ rt := fun x hx => hts x (List.mem_cons_of_mem t hx)
    simp only [List.length_cons, List.range_succ_eq_map, List.map_cons,
      List.map_map]
    by_cases hcap : RATE_LIMIT_MAX ≤ c
    · have h1 : checkRateLimit t u m = (false, m) := by
        simp [checkRateLimit, hm, hnotlt, hcap]
      have hrest := ih m c hm hc htail
      have hhead : decide (c + 0 < RATE_LIMIT_MAX) = false := by
        simp only [decide_eq_false_iff_not]
        omega
      simp only [runRate, h1]
      rw [hrest]
      refine congrArg₂ List.cons hhead.symm (List.map_congr_left ?_)
      intro i _
      simp only [Function.comp_apply]
      rw [decide_eq_decide]
      omega
    · have h1 : checkRateLimit t u m = (true, setRate u ⟨c + 1, rt⟩ m) := by
        simp [checkRateLimit, hm, hnotlt, hcap]
      have hrest := ih (setRate u ⟨c + 1, rt⟩ m) (c + 1)
        (lookupRate_setRate_self u ⟨c + 1, rt⟩ m) (by omega) htail
      have hhead : decide (c + 0 < RATE_LIMIT_MAX) = true := by
        simp only [decide_eq_true_eq]
        omega
      simp only [runRate, h1]
      rw [hrest]
      refine congrArg₂ List.cons hhead.symm (List.map_congr_left ?_)
      intro i _
      simp only [Function.comp_apply]
      rw [decide_eq_decide]
      omega

/-- C8: a user whose rate entry is fresh sends events at `t0` and then
at arbitrary times within the 1000 ms window: exactly the first
`RATE_LIMIT_MAX = 100` calls pass, every later one is dropped; a
dropped check leaves the rate map untouched; and a handler (here
`add-element`) invoked while the check fails is a complete no-op with
no emission. -/
theorem rate_limit_first_cap (u : String) (t0 : Nat) (ts : List Nat)
    (m : RateMap) (h0 : lookupRate u m = none)
    (hts : ∀ t ∈ ts, t ≤ t0 + RATE_LIMIT_WINDOW) :
    (runRate u (t0 :: ts) m).1 =
      (List.range (ts.length + 1)).map (fun i => decide (i < RATE_LIMIT_MAX)) ∧
    (∀ (now2 : Nat) (m2 : RateMap), (checkRateLimit now2 u m2).1 = false →
      (checkRateLimit now2 u m2).2 = m2) ∧
    (∀ (now2 : Nat) (sid : String) (r : Registry) (e? : Option Element),
      (checkRateLimit now2 u r.rateLimits).1 = false →
      addElement now2 sid u e? r = (r, [])) := by
  refine ⟨?_, fun now2 m2 h => checkRateLimit_drop_keeps_state now2 u m2 h, ?_⟩
  · have h1 : checkRateLimit t0 u m =
        (true, setRate u ⟨1, t0 + RATE_LIMIT_WINDOW⟩ m) := by
      simp [checkRateLimit, h0]
    have hrest := runRate_counting u ts (setRate u ⟨1, t0 + RATE_LIMIT_WINDOW⟩ m)
      1 (t0 + RATE_LIMIT_WINDOW)
      (lookupRate_setRate_self u ⟨1, t0 + RATE_LIMIT_WINDOW⟩ m)
      (Nat.le_refl 1) hts
    simp only [List.range_succ_eq_map, List.map_cons, List.map_map]
    have hhead : decide ((0 : Nat) < RATE_LIMIT_MAX) = true := by
      simp [RATE_LIMIT_MAX]
    simp only [runRate, h1]
    rw [hrest]
    refine congrArg₂ List.cons hhead.symm (List.map_congr_left ?_)
    intro i _
    simp only [Function.comp_apply]
    rw [decide_eq_decide]
    omega
  · intro now2 sid r e? hf
    have hkeep := checkRateLimit_drop_keeps_state now2 u r.rateLimits hf
    cases hl : lookupS sid r.sessions with
    | none => simp [addElement, hl]
    | some elems => simp [addElement, hl, hf, hkeep]

/-- Witness for C8: starting fresh, 151 events inside one window (one
at `t = 0`, then 150 at `t = 1`) get verdicts "first 100 pass, last 51
dropped". -/
theorem rate_limit_first_cap_witness :
    (runRate "u" (0 :: List.replicate 150 1) []).1 =
      (List.range 151).map (fun i => decide (i < RATE_LIMIT_MAX)) := by
  have h := (rate_limit_first_cap "u" 0 (List.replicate 150 1) []
    (by decide)
    (by
      intro t ht
      have ht1 := List.eq_of_mem_replicate ht
      simp only [RATE_LIMIT_WINDOW]
      omega)).1
  simpa using h

/-- C9: on disconnect of a connection bound to session `sid` and user
`u`, the remaining connections of the room are enumerated; while some
other live connection still carries `u` (by handshake query or bound
id), no `user-status-change{offline}` is emitted and the registry is
untouched; once none remains, `u` is removed from the session's Active
set and exactly one offline transition is emitted. -/
theorem offline_only_when_last_connection (sockId sid u : String)
    (roomSockets : List RSocket) (r : Registry) :
    (roomSockets.any
        (fun s => s.queryUserId == some u || s.boundUserId == some u) = true →
      (disconnectHandler sockId sid u roomSockets r).1 = r ∧
      countOffline (disconnectHandler sockId sid u roomSockets r).2 = 0) ∧
    (roomSockets.any
        (fun s => s.queryUserId == some u || s.boundUserId == some u) = false →
      (disconnectHandler sockId sid u roomSockets r).1.activeUsers =
        updateSet sid (setDel u) r.activeUsers ∧
      (disconnectHandler sockId sid u roomSockets r).1.sessions = r.sessions ∧
      countOffline (disconnectHandler sockId sid u roomSockets r).2 = 1 ∧
      (disconnectHandler sockId sid u roomSockets r).2 =
        [⟨Scope.room sid, Msg.cursorRemove sockId⟩,
         ⟨Scope.room sid, Msg.userStatusChange u "offline"⟩]) := by
  constructor
  · intro h
    simp [disconnectHandler, h, countOffline]
  · intro h
    simp [disconnectHandler, h, countOffline]

/-- Witness for C9: with another tab of `"u"` still in the room no
offline transition fires; with the room empty, exactly one fires. -/
theorem offline_only_when_last_connection_witness :
    ((disconnectHandler "k1" "s" "u" [⟨some "u", none⟩] regMembers).1 =
        regMembers ∧
     countOffline
        (disconnectHandler "k1" "s" "u" [⟨some "u", none⟩] regMembers).2 = 0) ∧
    countOffline (disconnectHandler "k1" "s" "u" [] regMembers).2 = 1 := by
  refine ⟨(offline_only_when_last_connection "k1" "s" "u"
      [⟨some "u", none⟩] regMembers).1 (by decide), ?_⟩
  exact ((offline_only_when_last_connection "k1" "s" "u" [] regMembers).2
      (by decide)).2.2.1

/-- C3 counterexample: with users `u, v` both active and both
authorized in session `"s"`, a `user-left{userId:"u"}` event does NOT
leave the Participant set unchanged — lines 308–310 delete the user
from `sessionParticipants` as well. -/
theorem user_left_changes_participants :
    ¬(lookupS "s" ((userLeft 0 "w" "u" "s" regMembers).1).sessionParticipants =
      lookupS "s" regMembers.sessionParticipants) := by
  decide

/-- C3 as amended: a `user-left{userId, sessionId}` event on a known
session removes the named user from BOTH the Active set and the
Participant set of that session; the element snapshots are untouched,
other users stay in both sets, other sessions' sets are untouched, and
`user-left` is fanned out to the whole room. -/
theorem user_left_removes_both_sets (now : Nat) (sender lu ls : String)
    (r : Registry) (hlu : ¬(lu = "")) (hls : ¬(ls = ""))
    (hrate : (checkRateLimit now sender r.rateLimits).1 = true) :
    (userLeft now sender lu ls r).1.sessions = r.sessions ∧
    (userLeft now sender lu ls r).1.activeUsers =
      updateSet ls (setDel lu) r.activeUsers ∧
    (userLeft now sender lu ls r).1.sessionParticipants =
      updateSet ls (setDel lu) r.sessionParticipants ∧
    (userLeft now sender lu ls r).2 = [⟨Scope.room ls, Msg.userLeftMsg lu⟩] ∧
    (∀ (v : String) (s : List String), ¬(v = lu) →
      ((v ∈ setDel lu s) ↔ v ∈ s)) ∧
    (∀ k, ¬(k = ls) →
      lookupS k (updateSet ls (setDel lu) r.activeUsers) =
        lookupS k r.activeUsers ∧
      lookupS k (updateSet ls (setDel lu) r.sessionParticipants) =
        lookupS k r.sessionParticipants) := by
  have hlu' : (lu == "") = false := beq_eq_false_iff_ne.mpr hlu
  have hls' : (ls == "") = false := beq_eq_false_iff_ne.mpr hls
  refine ⟨?_, ?_, ?_, ?_, ?_, ?_⟩
  · simp [userLeft, truthy, hlu', hls', hrate]
  · simp [userLeft, truthy, hlu', hls', hrate]
  · simp [userLeft, truthy, hlu', hls', hrate]
  · simp [userLeft, truthy, hlu', hls', hrate]
  · intro v s hv
    simp [setDel, List.mem_filter, beq_eq_false_iff_ne.mpr hv]
  · intro k hk
    exact ⟨lookupS_updateSet_ne ls k _ r.activeUsers hk,
           lookupS_updateSet_ne ls k _ r.sessionParticipants hk⟩

/-- Witness for the amended C3: `user-left{userId:"u"}` on `regMembers`
leaves the snapshot alone and shrinks both sets for session `"s"` to
`["v"]`. -/
theorem user_left_removes_both_sets_witness :
    (userLeft 0 "w" "u" "s" regMembers).1.sessions = regMembers.sessions ∧
    lookupS "s" ((userLeft 0 "w" "u" "s" regMembers).1).activeUsers =
      some ["v"] ∧
    lookupS "s" ((userLeft 0 "w" "u" "s" regMembers).1).sessionParticipants =
      some ["v"] := by
  have h := user_left_removes_both_sets 0 "w" "u" "s" regMembers
    (by decide) (by decide) (by decide)
  refine ⟨h.1, ?_, ?_⟩
  · rw [h.2.1]; decide
  · rw [h.2.2.1]; decide

/-- C4 counterexample: the `Whiteboard.tsx` `element-added` handler
appends unconditionally, so an element whose id is already present is
duplicated rather than leaving the collection unchanged. -/
theorem wb_element_added_duplicates :
    ¬(wbOnElementAdded (cE "a") [cE "a"] = [cE "a"]) := by
  decide

/-- C4 as amended: the `useWhiteboardSocket`-based page deduplicates
`element-added` by id and upserts `element-updated` (replace where the
id is found, else append); the `Whiteboard.tsx` handlers instead
append `element-added` unconditionally (a known id changes the
collection — it gains a duplicate) and `element-updated` only replaces
in place (an update for an unseen id is dropped, not appended). -/
theorem client_reconciliation_behavior (e : CElem) (prev : List CElem) :
    (prev.any (fun el => el.id == e.id) = true →
      hookOnElementAdded e prev = prev) ∧
    (prev.any (fun el => el.id == e.id) = true →
      hookOnElementUpdated e prev =
        prev.map (fun el => if el.id == e.id then e else el)) ∧
    (prev.any (fun el => el.id == e.id) = false →
      hookOnElementAdded e prev = prev ++ [e] ∧
      hookOnElementUpdated e prev = prev ++ [e]) ∧
    (prev.any (fun el => el.id == e.id) = true →
      ¬(wbOnElementAdded e prev = prev)) ∧
    ((∀ el ∈ prev, ¬(el.id = e.id)) → wbOnElementUpdated e prev = prev) := by
  refine ⟨?_, ?_, ?_, ?_, ?_⟩
  · intro h; simp [hookOnElementAdded, h]
  · intro h; simp [hookOnElementUpdated, h]
  · intro h; constructor
    · simp [hookOnElementAdded, h]
    · simp [hookOnElementUpdated, h]
  · intro _ heq
    have hlen := congrArg List.length heq
    simp [wbOnElementAdded] at hlen
  · intro habs
    have hid : ∀ el ∈ prev, (if el.id == e.id then e else el) = el := by
      intro el hel
      simp [beq_eq_false_iff_ne.mpr (habs el hel)]
    calc prev.map (fun el => if el.id == e.id then e else el)
        = prev.map id := List.map_congr_left hid
      _ = prev := List.map_id prev

/-- Witness for the amended C4: with `[cE "a"]` held locally, the hook
page ignores a duplicate add and upserts an update for the unseen id
`"b"`; `Whiteboard.tsx` duplicates the add and drops that update. -/
theorem client_reconciliation_behavior_witness :
    hookOnElementAdded (cE "a") [cE "a"] = [cE "a"] ∧
    hookOnElementUpdated (cE "b") [cE "a"] = [cE "a", cE "b"] ∧
    ¬(wbOnElementAdded (cE "a") [cE "a"] = [cE "a"]) ∧
    wbOnElementUpdated (cE "b") [cE "a"] = [cE "a"] := by
  refine ⟨(client_reconciliation_behavior (cE "a") [cE "a"]).1 (by decide),
    ((client_reconciliation_behavior (cE "b") [cE "a"]).2.2.1 (by decide)).2,
    (client_reconciliation_behavior (cE "a") [cE "a"]).2.2.2.1 (by decide),
    (client_reconciliation_behavior (cE "b") [cE "a"]).2.2.2.2 ?_⟩
  intro el hel
  have h1 : el = cE "a" := List.mem_singleton.mp hel
  subst h1
  decide

/-- C5 counterexample: a `send-invite` from a bound, rate-clean user
whose `toUserIds` is the number `5` does NOT degrade to a no-op — the
handler throws a `TypeError` at `toUserIds.join(", ")` (line 132),
crossing the event boundary. -/
theorem send_invite_nonarray_throws :
    sendInvite 0 (some "u")
        (JSVal.obj [("toUserIds", JSVal.num 5), ("session", JSVal.obj [])])
        [] = Except.error JSErr.typeError := rfl

/-- C5 as amended: not every handler is exception-safe.  `send-invite`
raises a `TypeError` whenever `toUserIds` is not an array (for any
session payload and any rate state in which the check passes), and
`session-ended` raises a `TypeError` whenever its payload is not an
object (destructuring `{ sessionId }` of `null`). -/
theorem invite_session_ended_can_throw (now : Nat) (u : String)
    (rl : RateMap) (session tv : JSVal) (r : Registry)
    (hu : ¬(u = "")) (hrate : (checkRateLimit now u rl).1 = true)
    (harr : ∀ xs, ¬(tv = JSVal.arr xs)) :
    sendInvite now (some u)
        (JSVal.obj [("toUserIds", tv), ("session", session)]) rl =
      Except.error JSErr.typeError ∧
    sessionEnded now u JSVal.null r = Except.error JSErr.typeError := by
  constructor
  · have hu' : (u == "") = false := beq_eq_false_iff_ne.mpr hu
    have hjoin : jsJoin tv = Except.error JSErr.typeError := by
      cases tv
      case arr xs => exact absurd rfl (harr xs)
      all_goals rfl
    have hg1 : getField (JSVal.obj [("toUserIds", tv), ("session", session)])
        "toUserIds" = Except.ok tv := rfl
    have hg2 : getField (JSVal.obj [("toUserIds", tv), ("session", session)])
        "session" = Except.ok session := rfl
    simp [sendInvite, hg1, hg2, truthy, hu', hrate, hjoin,
      Bind.bind, Except.instMonad, Except.bind]
  · rfl

/-- Witness for the amended C5 at a concrete input: `toUserIds = 7`
makes `send-invite` throw, and a `null` payload makes `session-ended`
throw. -/
theorem invite_session_ended_can_throw_witness :
    sendInvite 5 (some "u")
        (JSVal.obj [("toUserIds", JSVal.num 7), ("session", JSVal.obj [])])
        [] = Except.error JSErr.typeError ∧
    sessionEnded 5 "u" JSVal.null (sampleReg []) =
      Except.error JSErr.typeError :=
  invite_session_ended_can_throw 5 "u" [] (JSVal.obj []) (JSVal.num 7)
    (sampleReg []) (by decide) (by decide) (fun _ h => nomatch h)

end Whiteboard
